import Mathlib

/-!
Verification development for the Obsidian Full Calendar plugin fork.

This file shallowly embeds the parts of the TypeScript source that the
verified properties concern:

* path normalization and event-derived filenames in
  `src/calendars/FullNoteCalendar.ts`;
* the vault-mutating operations of `FullNoteCalendar`
  (`createEvent`, `getNewLocation`, `modifyEvent`, `move`, `deleteEvent`,
  `getEvents`, `getEventsInFile`);
* the `revalidate` pagination loop of `src/calendars/GoogleCalendar.ts`;
* the zod-based descriptor validation in `src/types/calendar_settings.ts`;
* the save/latch logic of `src/ui/components/EditEvent.tsx`;
* the file-system notification routing and the settings-persistence
  filter in `src/main.ts`.

Stateful TypeScript is embedded as pure functions that take the relevant
state (vault contents, cached snapshot, latch flag) explicitly and return
the new state together with a trace of performed side effects; `throw`
becomes `Except.error` / an error component produced before any effect is
recorded, exactly mirroring the order of statements in the source.
-/

namespace FullCalendar

/-! ## Vault path utilities (`FullNoteCalendar.ts`, `normalizeVaultPath` / `joinVaultPath`) -/

/-- One character of the JS `path.replace(/\\/g, "/")` step. -/
def backslashToSlash (c : Char) : Char :=
  if c = '\\' then '/' else c

/-- The JS `replace(/\/+/g, "/")` step: collapse runs of slashes to one. -/
def collapseSlashes : List Char → List Char
  | [] => []
  | c :: rest =>
    let tail := collapseSlashes rest
    if c = '/' then
      match tail with
      | '/' :: t => '/' :: t
      | _ => '/' :: tail
    else c :: tail

/-- The JS `replace(/^\//, "")` step: drop a single leading slash. -/
def dropLeadingSlash : List Char → List Char
  | '/' :: rest => rest
  | l => l

/-- `normalizeVaultPath` from `FullNoteCalendar.ts`: backslashes to slashes,
collapse duplicate slashes, strip one leading slash. -/
def normalizeVaultPath (path : String) : String :=
  String.mk (dropLeadingSlash (collapseSlashes (path.data.map backslashToSlash)))

/-- `joinVaultPath` from `FullNoteCalendar.ts`: returns the filename alone when
the normalized directory is empty. -/
def joinVaultPath (directory filename : String) : String :=
  let dir := normalizeVaultPath directory
  if dir = "" then filename
  else normalizeVaultPath (dir ++ "/" ++ filename)

/-- Split a character list at a separator character; like JS
`String.prototype.split` with a one-character separator, the result is
never empty. -/
def splitOnChar (sep : Char) : List Char → List (List Char)
  | [] => [[]]
  | c :: rest =>
    let r := splitOnChar sep rest
    if c = sep then [] :: r
    else
      match r with
      | [] => [[c]]
      | s :: ss => (c :: s) :: ss

/-- The `/`-separated segments of a path. -/
def pathSegments (p : String) : List String :=
  (splitOnChar '/' p.data).map String.mk

/-- Path of the folder containing `p`: everything before the final slash
(`""` for a top-level path). This is the flat-model counterpart of
Obsidian's `file.parent.path`. -/
def parentDir (p : String) : String :=
  String.intercalate "/" (pathSegments p).dropLast

/-- Final path segment, the counterpart of Obsidian's `file.name`. -/
def lastSegment (p : String) : String :=
  ((pathSegments p).getLast?).getD p

/-- Node's `basename(name, extname(name))` as used by the vault adapter:
strip the final extension of a file name unless the only dot is the
leading character (hidden files keep their name). -/
def stripExtension (name : String) : String :=
  let parts := (splitOnChar '.' name.data).map String.mk
  match parts with
  | [] => name
  | [_] => name
  | first :: _ :: rest =>
    if first = "" ∧ rest = [] then name
    else String.intercalate "." parts.dropLast

/-! ## The event data model (`OFCEvent`) -/

/-- Value of the `completed` field on single events: `null` means "not a
task", `false` an incomplete task, a timestamp string a completed task. -/
inductive CompletedVal where
  | notTask
  | incomplete
  | doneAt (timestamp : String)
  deriving DecidableEq, Repr

/-- The discriminated union of event shapes (`OFCEvent` in `src/types`).
The `single` constructor also covers frontmatter with `type` undefined,
which `basenameFromEvent` treats identically to `"single"`. -/
inductive OFCEvent where
  | single (title : String) (color : Option String) (id : Option String)
      (date : String) (endDate : Option String) (allDay : Bool)
      (startTime endTime : Option String) (completed : Option CompletedVal)
  | recurring (title : String) (color : Option String) (id : Option String)
      (daysOfWeek : List String) (startRecur endRecur : Option String)
      (allDay : Bool) (startTime endTime : Option String)
  | rrule (title : String) (color : Option String) (id : Option String)
      (rule : String) (startDate : String) (skipDates : List String)
  deriving DecidableEq, Repr

/-- The `title` field shared by all three shapes. -/
def OFCEvent.title : OFCEvent → String
  | .single t _ _ _ _ _ _ _ _ => t
  | .recurring t _ _ _ _ _ _ _ _ => t
  | .rrule t _ _ _ _ _ => t

/-- Replace the `title` field, used by `getEventsInFile` for its
`event.title = file.basename` defaulting. -/
def OFCEvent.withTitle (ev : OFCEvent) (t : String) : OFCEvent :=
  match ev with
  | .single _ c i d e a s en cm => .single t c i d e a s en cm
  | .recurring _ c i dw sr er a s en => .recurring t c i dw sr er a s en
  | .rrule _ c i r sd sk => .rrule t c i r sd sk

/-- `basenameFromEvent` from `FullNoteCalendar.ts`. The rrule branch calls
the external `rrule` library's `rrulestr(...).toText()`; that library is
outside the repository, so the translation is parameterized by the text
rendering `rruleToText`. -/
def basenameFromEvent (rruleToText : String → String) : OFCEvent → String
  | .single title _ _ date _ _ _ _ _ => date ++ " " ++ title
  | .recurring title _ _ daysOfWeek _ _ _ _ _ =>
    "(Every " ++ String.intercalate "," daysOfWeek ++ ") " ++ title
  | .rrule title _ _ rule _ _ => "(" ++ rruleToText rule ++ ") " ++ title

/-- `filenameForEvent` from `FullNoteCalendar.ts`. -/
def filenameForEvent (rruleToText : String → String) (ev : OFCEvent) : String :=
  basenameFromEvent rruleToText ev ++ ".md"

/-! ## Frontmatter serialization (`newFrontmatter` in `FullNoteCalendar.ts`) -/

/-- The `PrintableAtom` values that can appear on a frontmatter line. -/
inductive YamlAtom where
  | str (s : String)
  | int (n : Int)
  | bool (b : Bool)
  | null
  | arr (vs : List YamlAtom)
  deriving Repr

mutual

/-- `stringifyYamlAtom` from `FullNoteCalendar.ts`: arrays render as
`[a,b,...]`, everything else via JS template-string coercion. -/
def stringifyYamlAtom : YamlAtom → String
  | .str s => s
  | .int n => toString n
  | .bool b => if b then "true" else "false"
  | .null => "null"
  | .arr vs => "[" ++ stringifyYamlAtoms vs ++ "]"

/-- Comma-joined rendering of a list of atoms (the `map`/`join(",")`). -/
def stringifyYamlAtoms : List YamlAtom → String
  | [] => ""
  | [v] => stringifyYamlAtom v
  | v :: rest => stringifyYamlAtom v ++ "," ++ stringifyYamlAtoms rest

end

/-- `stringifyYamlLine` from `FullNoteCalendar.ts`. -/
def stringifyYamlLine (k : String) (v : YamlAtom) : String :=
  k ++ ": " ++ stringifyYamlAtom v

/-- The key/value entries of the event object as seen by
`Object.entries(fields)` in `newFrontmatter`; a `none` value is a JS
`undefined`, filtered out before serialization. Completed tasks keep the
semantic `null`/`false`/timestamp distinction. -/
def eventFields : OFCEvent → List (String × Option YamlAtom)
  | .single title color id date endDate allDay startTime endTime completed =>
    [("title", some (.str title)),
     ("color", color.map .str),
     ("id", id.map .str),
     ("type", some (.str "single")),
     ("date", some (.str date)),
     ("endDate", endDate.map .str),
     ("allDay", some (.bool allDay)),
     ("startTime", startTime.map .str),
     ("endTime", endTime.map .str),
     ("completed", completed.map fun
        | .notTask => .null
        | .incomplete => .bool false
        | .doneAt ts => .str ts)]
  | .recurring title color id daysOfWeek startRecur endRecur allDay startTime endTime =>
    [("title", some (.str title)),
     ("color", color.map .str),
     ("id", id.map .str),
     ("type", some (.str "recurring")),
     ("daysOfWeek", some (.arr (daysOfWeek.map .str))),
     ("startRecur", startRecur.map .str),
     ("endRecur", endRecur.map .str),
     ("allDay", some (.bool allDay)),
     ("startTime", startTime.map .str),
     ("endTime", endTime.map .str)]
  | .rrule title color id rule startDate skipDates =>
    [("title", some (.str title)),
     ("color", color.map .str),
     ("id", id.map .str),
     ("type", some (.str "rrule")),
     ("rrule", some (.str rule)),
     ("startDate", some (.str startDate)),
     ("skipDates", some (.arr (skipDates.map .str)))]

/-- `newFrontmatter` from `FullNoteCalendar.ts`: drop `undefined` values,
render each remaining field on its own line between `---` fences. -/
def newFrontmatter (fields : List (String × Option YamlAtom)) : String :=
  "---\n" ++
    String.intercalate "\n"
      (fields.filterMap fun kv => kv.2.map (stringifyYamlLine kv.1)) ++
    "\n---\n"

/-! ## The vault model

The vault adapter (`ObsidianInterface` / Obsidian's `Vault`) is an external
collaborator of the calendar classes; spec §6 requires of it only
path-resolution and read/write/rename/delete primitives. We model a vault
snapshot as a flat list of file paths with metadata of an arbitrary type
`μ` (the file's content or parsed frontmatter), plus a list of folder
paths, with the root folder always present. All paths stored are in
normalized form. -/

structure Vault (μ : Type) where
  files : List (String × μ)
  folders : List String
  deriving Repr

/-- `getFileByPath`: resolve a path to a file, never a folder. -/
def Vault.lookupFile (v : Vault μ) (p : String) : Option μ :=
  (v.files.find? fun kv => kv.1 = p).map fun kv => kv.2

/-- Whether a folder exists at `p` (the root path `""` always resolves). -/
def Vault.isFolder (v : Vault μ) (p : String) : Bool :=
  p = "" ∨ p ∈ v.folders

/-- `getAbstractFileByPath`: does any file or folder live at `p`? -/
def Vault.entryExists (v : Vault μ) (p : String) : Bool :=
  (v.lookupFile p).isSome ∨ v.isFolder p

/-- Direct child files of the folder at `dir` (the `TFile` members of
`folder.children`), in vault order. -/
def Vault.childFiles (v : Vault μ) (dir : String) : List (String × μ) :=
  v.files.filter fun kv => parentDir kv.1 = dir

/-! ## FullNoteCalendar operations

Each operation returns the ordered trace of side effects it performed
(vault writes and `updateCacheWithLocation` callback invocations) together
with its result; a thrown `Error` becomes an `Except.error` carrying the
effects performed before the throw. -/

/-- An event's location: file path plus optional in-file line anchor. -/
structure EventLocation where
  path : String
  lineNumber : Option Nat
  deriving DecidableEq, Repr

/-- A side effect performed by a calendar operation, in program order. -/
inductive VaultAction where
  | callback (loc : EventLocation)
  | rename (oldPath newPath : String)
  | rewrite (path : String)
  | create (path : String) (content : String)
  | deleteFile (path : String)
  deriving DecidableEq, Repr

/-- `FullNoteCalendar.createEvent`: join the calendar directory with the
event-derived filename, reject if anything already lives there, otherwise
create the file with the event's frontmatter. -/
def createEvent (v : Vault μ) (directory : String) (rruleToText : String → String)
    (ev : OFCEvent) : List VaultAction × Except String EventLocation :=
  let path := joinVaultPath directory (filenameForEvent rruleToText ev)
  if v.entryExists path then
    ([], .error ("Event at " ++ path ++ " already exists."))
  else
    ([.create path (newFrontmatter (eventFields ev))],
     .ok ⟨path, none⟩)

/-- `FullNoteCalendar.getNewLocation`: reject in-file anchors and missing
files, otherwise relocate into the file's parent folder under the
event-derived filename. -/
def getNewLocation (v : Vault μ) (rruleToText : String → String)
    (location : EventLocation) (ev : OFCEvent) : Except String EventLocation :=
  if location.lineNumber ≠ none then
    .error "Note calendar cannot handle inline events."
  else
    let normalizedPath := normalizeVaultPath location.path
    match v.lookupFile normalizedPath with
    | none => .error ("File " ++ normalizedPath ++ " either doesn't exist or is a folder.")
    | some _ =>
      .ok ⟨joinVaultPath (parentDir normalizedPath) (filenameForEvent rruleToText ev),
           none⟩

/-- `FullNoteCalendar.modifyEvent`: resolve the file, compute the new
location, report it through the callback, rename only when the path
changed, then rewrite the frontmatter. -/
def modifyEvent (v : Vault μ) (rruleToText : String → String)
    (location : EventLocation) (ev : OFCEvent) :
    List VaultAction × Except String Unit :=
  let normalizedPath := normalizeVaultPath location.path
  match v.lookupFile normalizedPath with
  | none =>
    ([], .error ("File " ++ location.path ++ " either doesn't exist or is a folder."))
  | some _ =>
    match getNewLocation v rruleToText location ev with
    | .error e => ([], .error e)
    | .ok newLocation =>
      (VaultAction.callback newLocation ::
        ((if normalizedPath ≠ newLocation.path then
            [VaultAction.rename normalizedPath newLocation.path]
          else []) ++ [VaultAction.rewrite newLocation.path]),
       .ok ())

/-- The destination argument of `move`: either another `FullNoteCalendar`
(with its directory) or an `EditableCalendar` of a different class. -/
inductive DestCalendar where
  | fullNote (directory : String)
  | otherType (typeName : String)
  deriving DecidableEq, Repr

/-- `FullNoteCalendar.move`: reject in-file anchors, destinations that are
not note calendars, and missing files; otherwise report the new location
and rename the file into the destination directory. -/
def move (v : Vault μ) (fromLocation : EventLocation) (toCalendar : DestCalendar) :
    List VaultAction × Except String Unit :=
  if fromLocation.lineNumber ≠ none then
    ([], .error "Note calendar cannot handle inline events.")
  else
    match toCalendar with
    | .otherType t =>
      ([], .error ("Event cannot be moved to a note calendar from a calendar of type "
        ++ t ++ "."))
    | .fullNote destDir =>
      let normalizedPath := normalizeVaultPath fromLocation.path
      match v.lookupFile normalizedPath with
      | none => ([], .error ("File " ++ normalizedPath ++ " not found."))
      | some _ =>
        let newPath := joinVaultPath destDir (lastSegment normalizedPath)
        ([.callback ⟨newPath, none⟩, .rename normalizedPath newPath], .ok ())

/-- `FullNoteCalendar.deleteEvent`: reject in-file anchors and missing
files, otherwise delete the file. -/
def deleteEvent (v : Vault μ) (location : EventLocation) :
    List VaultAction × Except String Unit :=
  if location.lineNumber ≠ none then
    ([], .error "Note calendar cannot handle inline events.")
  else
    let normalizedPath := normalizeVaultPath location.path
    match v.lookupFile normalizedPath with
    | none => ([], .error ("File " ++ normalizedPath ++ " not found."))
    | some _ => ([.deleteFile normalizedPath], .ok ())

/-- `FullNoteCalendar.getEventsInFile`: validate the file's frontmatter
metadata (via the out-of-repository `validateEvent`, passed in as
`validate`), default an empty title to the file's basename, and return the
event under a whole-file location. -/
def getEventsInFile (validate : μ → Option OFCEvent) (path : String) (meta : μ) :
    List (OFCEvent × EventLocation) :=
  match validate meta with
  | none => []
  | some ev =>
    let ev' := if ev.title = "" then ev.withTitle (stripExtension (lastSegment path)) else ev
    [(ev', ⟨path, none⟩)]

/-- `FullNoteCalendar.getEvents`: resolve the configured directory (the
vault root when empty), reject when it is missing or is a file, and
collect the events of the folder's direct child `TFile`s only. -/
def getEvents (v : Vault μ) (validate : μ → Option OFCEvent) (directory : String) :
    Except String (List (OFCEvent × EventLocation)) :=
  let dirPath := normalizeVaultPath directory
  if dirPath = "" then
    .ok ((v.childFiles "").flatMap fun kv => getEventsInFile validate kv.1 kv.2)
  else if (v.lookupFile dirPath).isSome then
    .error (dirPath ++ " is not a directory.")
  else if v.isFolder dirPath then
    .ok ((v.childFiles dirPath).flatMap fun kv => getEventsInFile validate kv.1 kv.2)
  else
    .error ("Cannot get folder " ++ directory)

/-- `FullNoteCalendar.getEventsInFolderRecursive`: every descendant file
of the folder, not only direct children. In the flat vault model a
descendant of `dir` is a file whose path extends `dir` (or any file when
`dir` is the root). -/
def getEventsInFolderRecursive (v : Vault μ) (validate : μ → Option OFCEvent)
    (dir : String) : List (OFCEvent × EventLocation) :=
  (v.files.filter fun kv =>
      dir = "" ∨ kv.1 = dir ++ "/" ++ (kv.1.drop (dir.length + 1))).flatMap
    fun kv => getEventsInFile validate kv.1 kv.2

/-! ## GoogleCalendar.revalidate (`src/calendars/GoogleCalendar.ts`)

`revalidate` acquires an access token, then pages through the events-list
endpoint, accumulating every non-cancelled item into a local `allEvents`
array; only after the last page does it assign `this.events = allEvents`.
The token service and the HTTP layer are external collaborators, so a run
is parameterized by the token outcome and by the sequence of page
outcomes the network produced. -/

/-- The subset of a Google API event record that `revalidate` inspects. -/
structure GoogleEvent where
  id : String
  summary : Option String
  status : Option String
  deriving DecidableEq, Repr

/-- The outcome of one `requestUrl` call inside the pagination loop:
either the request itself throws, or a parsed `GoogleEventsListResponse`
with its optional `error`, `items` and `nextPageToken` fields. -/
inductive PageOutcome where
  | requestThrows
  | response (error : Option String) (items : Option (List GoogleEvent))
      (nextPageToken : Option String)
  deriving Repr

/-- The pagination `do`/`while` loop: consume page outcomes in order,
filtering out cancelled items, until a page carries no `nextPageToken`.
Running out of responses while a further page is demanded counts as the
request throwing. -/
def fetchAllPages : List PageOutcome → Except String (List GoogleEvent)
  | [] => .error "request failed"
  | .requestThrows :: _ => .error "request failed"
  | .response err items next :: rest =>
    match err with
    | some m => .error ("Google Calendar API error: " ++ m)
    | none =>
      let page := (items.getD []).filter fun e => e.status ≠ some "cancelled"
      match next with
      | none => .ok page
      | some _ =>
        match fetchAllPages rest with
        | .error e => .error e
        | .ok restEvents => .ok (page ++ restEvents)

/-- One call to `GoogleCalendar.revalidate` against the snapshot
`events`: returns the snapshot after the call together with the error it
threw, if any. `this.events` is only assigned on the success path, as the
final statement of the method. -/
def revalidate (events : List GoogleEvent) (token : Except String String)
    (pages : List PageOutcome) : List GoogleEvent × Option String :=
  match token with
  | .error e => (events, some e)
  | .ok _ =>
    match fetchAllPages pages with
    | .error e => (events, some e)
    | .ok fetched => (fetched, none)

/-! ## Calendar descriptor validation (`src/types/calendar_settings.ts`)

The zod schemas are modeled over a JSON-like value type. `z.string().url()`
delegates URL validity to zod's internal check, an external library
detail, so the model is parameterized by a predicate `isUrl`. -/

/-- A JSON-like runtime value, the domain of `safeParseCalendarInfo`. -/
inductive JValue where
  | null
  | bool (b : Bool)
  | num (n : Int)
  | str (s : String)
  | arr (vs : List JValue)
  | obj (kvs : List (String × JValue))
  deriving Repr

/-- Field lookup on an object value; `none` on every non-object. -/
def JValue.lookup : JValue → String → Option JValue
  | .obj kvs, k => (kvs.find? fun kv => kv.1 = k).map fun kv => kv.2
  | _, _ => none

/-- `z.string()`: accept exactly string values. -/
def asString : Option JValue → Option String
  | some (.str s) => some s
  | _ => none

/-- `z.string().url()`: a string accepted by the URL validity check. -/
def asUrl (isUrl : String → Bool) (v : Option JValue) : Option String :=
  match asString v with
  | some s => if isUrl s then some s else none
  | none => none

/-- The five type-specific variants of `calendarOptionsSchema`. -/
inductive CalendarOptions where
  | localCal (directory : String)
  | dailynote (heading : String)
  | ical (url : String)
  | caldav (name url homeUrl username password : String)
  | gcal (calendarId : String) (name : String)
  deriving DecidableEq, Repr

/-- A parsed `CalendarInfo`: the variant's fields plus the shared color. -/
structure CalendarInfo where
  options : CalendarOptions
  color : String
  deriving DecidableEq, Repr

/-- `calendarOptionsSchema.parse`: the discriminated union keyed on the
`type` field, each branch checking its variant's required fields and
stripping everything else. -/
def parseCalendarOptions (isUrl : String → Bool) (v : JValue) :
    Except String CalendarOptions :=
  match v.lookup "type" with
  | some (.str "local") =>
    match asString (v.lookup "directory") with
    | some d => .ok (.localCal d)
    | none => .error "invalid local descriptor"
  | some (.str "dailynote") =>
    match asString (v.lookup "heading") with
    | some h => .ok (.dailynote h)
    | none => .error "invalid dailynote descriptor"
  | some (.str "ical") =>
    match asUrl isUrl (v.lookup "url") with
    | some u => .ok (.ical u)
    | none => .error "invalid ical descriptor"
  | some (.str "caldav") =>
    match asString (v.lookup "name"), asUrl isUrl (v.lookup "url"),
        asUrl isUrl (v.lookup "homeUrl"), asString (v.lookup "username"),
        asString (v.lookup "password") with
    | some n, some u, some hu, some un, some pw => .ok (.caldav n u hu un pw)
    | _, _, _, _, _ => .error "invalid caldav descriptor"
  | some (.str "gcal") =>
    match asString (v.lookup "calendarId"), asString (v.lookup "name") with
    | some cid, some n => .ok (.gcal cid n)
    | _, _ => .error "invalid gcal descriptor"
  | _ => .error "invalid discriminator"

/-- `parseCalendarInfo`: options schema, then the color validator, the
results spread into one record. Throws (`Except.error`) on failure. -/
def parseCalendarInfo (isUrl : String → Bool) (v : JValue) :
    Except String CalendarInfo :=
  match parseCalendarOptions isUrl v with
  | .error e => .error e
  | .ok options =>
    match asString (v.lookup "color") with
    | some c => .ok ⟨options, c⟩
    | none => .error "invalid color"

/-- `safeParseCalendarInfo`: wrap `parseCalendarInfo` in a `try`/`catch`
that turns every failure into `null`. -/
def safeParseCalendarInfo (isUrl : String → Bool) (v : JValue) :
    Option CalendarInfo :=
  match parseCalendarInfo isUrl v with
  | .ok info => some info
  | .error _ => none

/-- The claim's description of `safeParseCalendarInfo`, stated on its own:
an input is accepted exactly when it carries a string `color` and
conforms to one of the five descriptor schemas, in which case the result
combines the variant's type-specific fields with that color; every other
input yields `null`. Used as the specification side of the refinement
proof for the parser above. -/
def specCalendarInfo (isUrl : String → Bool) (v : JValue) : Option CalendarInfo :=
  match asString (v.lookup "color") with
  | none => none
  | some c =>
    match asString (v.lookup "type") with
    | some "local" =>
      (asString (v.lookup "directory")).map fun d => ⟨.localCal d, c⟩
    | some "dailynote" =>
      (asString (v.lookup "heading")).map fun h => ⟨.dailynote h, c⟩
    | some "ical" =>
      (asUrl isUrl (v.lookup "url")).map fun u => ⟨.ical u, c⟩
    | some "caldav" =>
      match asString (v.lookup "name"), asUrl isUrl (v.lookup "url"),
          asUrl isUrl (v.lookup "homeUrl"), asString (v.lookup "username"),
          asString (v.lookup "password") with
      | some n, some u, some hu, some un, some pw => some ⟨.caldav n u hu un pw, c⟩
      | _, _, _, _, _ => none
    | some "gcal" =>
      match asString (v.lookup "calendarId"), asString (v.lookup "name") with
      | some cid, some n => some ⟨.gcal cid n, c⟩
      | _, _ => none
    | _ => none

/-! ## EditEvent saving (`src/ui/components/EditEvent.tsx`)

`performSave` guards creation saves on a non-empty merged title, a
non-empty `date` state, and the one-shot `hasCreatedRef` latch; it then
awaits the `submit` prop with a `markCreated` callback that sets the
latch, and on normal completion sets the latch itself in create mode.
A thrown `submit` is swallowed by the `try`/`catch`. The `submit` prop
is an external collaborator, so each call's observable behavior (did it
invoke `markCreated`? did it throw?) parameterizes the model. -/

/-- Observable behavior of one `submit` invocation: whether it calls the
`markCreated` option before returning/throwing, and whether it throws. -/
structure SubmitBehavior where
  callsMarkCreated : Bool
  throws : Bool
  deriving DecidableEq, Repr

/-- One `performSave` call: the merged event title (after overrides), the
`date` state at call time, and how `submit` behaves if invoked. -/
structure SaveStep where
  dataTitle : String
  date : String
  behavior : SubmitBehavior
  deriving DecidableEq, Repr

/-- `performSave`: given the latch value, return the latch after the call
and whether `submit` was invoked. -/
def performSave (isCreate : Bool) (step : SaveStep) (hasCreated : Bool) :
    Bool × Bool :=
  if isCreate ∧ step.dataTitle = "" then (hasCreated, false)
  else if isCreate ∧ step.date = "" then (hasCreated, false)
  else if isCreate ∧ hasCreated then (hasCreated, false)
  else
    let afterMark := hasCreated ∨ step.behavior.callsMarkCreated
    if step.behavior.throws then (afterMark, true)
    else ((afterMark ∨ isCreate), true)

/-- Run a sequence of save attempts (auto-save, form submit,
close-triggered), threading the latch; returns the final latch and the
number of `submit` invocations issued. -/
def runSaves (isCreate : Bool) (hasCreated : Bool) : List SaveStep → Bool × Nat
  | [] => (hasCreated, 0)
  | step :: rest =>
    let r := performSave isCreate step hasCreated
    let rec' := runSaves isCreate r.1 rest
    (rec'.1, (if r.2 then 1 else 0) + rec'.2)

/-! ## File-system notification routing (`src/main.ts`, `onload`) -/

/-- A vault entry as delivered to the notification handlers: a `TFile`
or a folder, with its (current) path. -/
inductive NotifiedEntry where
  | tfile (path : String)
  | tfolder (path : String)
  deriving DecidableEq, Repr

/-- A file-system notification delivered while the plugin is loaded.
`metadataChanged` is the metadata-cache `"changed"` event, which Obsidian
only emits for files. -/
inductive FsNotification where
  | metadataChanged (file : String)
  | renamed (entry : NotifiedEntry) (oldPath : String)
  | deleted (entry : NotifiedEntry)
  deriving DecidableEq, Repr

/-- A call into the event cache. -/
inductive CacheCall where
  | fileUpdated (path : String)
  | deleteEventsAtPath (path : String)
  deriving DecidableEq, Repr

/-- The three handlers registered in `FullCalendarPlugin.onload`: changed
files flow to `fileUpdated`; renames and deletions of files flow to
`deleteEventsAtPath` (with the old path for renames); folder events are
filtered out by the `instanceof TFile` guards. -/
def dispatchNotification : FsNotification → List CacheCall
  | .metadataChanged file => [.fileUpdated file]
  | .renamed (.tfile _) oldPath => [.deleteEventsAtPath oldPath]
  | .renamed (.tfolder _) _ => []
  | .deleted (.tfile path) => [.deleteEventsAtPath path]
  | .deleted (.tfolder _) => []

/-! ## Settings persistence (`src/main.ts`, `getSettingsForSave` / `saveData`) -/

/-- `FullCalendarSettings` from `src/ui/settings.ts`. Calendar sources are
kept abstract as JSON values. -/
structure FullCalendarSettings where
  calendarSources : List JValue
  defaultCalendar : Int
  firstDay : Int
  initialViewDesktop : String
  initialViewMobile : String
  timeFormat24h : Bool
  clickToCreateEventFromMonthView : Bool
  slotMinTime : String
  slotMaxTime : String
  googleClientId : String
  googleClientSecret : String
  googleRefreshToken : String
  googleAccessToken : String
  googleTokenExpiry : Int

/-- `getSettingsForSave`: the current settings with the three Google
token fields blanked out. -/
def getSettingsForSave (s : FullCalendarSettings) : FullCalendarSettings :=
  { s with googleRefreshToken := "", googleAccessToken := "", googleTokenExpiry := 0 }

/-- What the overridden `saveData` hands to `super.saveData`. -/
inductive SavedPayload where
  | settings (s : FullCalendarSettings)
  | raw (v : JValue)

/-- The JS test `data && typeof data === "object" && "calendarSources" in data`:
a non-null object (arrays included, but `in` finds no such key on them)
carrying a `calendarSources` property. -/
def hasCalendarSourcesField : JValue → Bool
  | .obj kvs => kvs.any fun kv => kv.1 = "calendarSources"
  | _ => false

/-- `FullCalendarPlugin.saveData`: an argument that looks like the
settings object is replaced wholesale by `getSettingsForSave()`; a
missing/null argument also falls back to `getSettingsForSave()`; anything
else is persisted as-is. -/
def saveData (settings : FullCalendarSettings) (data : Option JValue) : SavedPayload :=
  match data with
  | none => .settings (getSettingsForSave settings)
  | some .null => .settings (getSettingsForSave settings)
  | some v =>
    if hasCalendarSourcesField v then .settings (getSettingsForSave settings)
    else .raw v

/-! ## Theorems -/

/-- Every event list produced by a successful pagination run is free of
cancelled events: each page's items pass the `status !== "cancelled"`
filter before being accumulated. -/
theorem fetchAllPages_no_cancelled (pages : List PageOutcome)
    (l : List GoogleEvent) (h : fetchAllPages pages = .ok l) :
    ∀ e ∈ l, e.status ≠ some "cancelled" := by
  induction pages generalizing l with
  | nil => simp [fetchAllPages] at h
  | cons p rest ih =>
    cases p with
    | requestThrows => simp [fetchAllPages] at h
    | response err items next =>
      cases err with
      | some m => simp [fetchAllPages] at h
      | none =>
        cases next with
        | none =>
          simp only [fetchAllPages, Except.ok.injEq] at h
          subst h
          intro e he
          have := List.of_mem_filter he
          simpa using this
        | some t =>
          simp only [fetchAllPages] at h
          cases hrest : fetchAllPages rest with
          | error e => rw [hrest] at h; exact absurd h (by simp)
          | ok restEvents =>
            rw [hrest] at h
            simp only [Except.ok.injEq] at h
            subst h
            intro e he
            rcases List.mem_append.mp he with hpage | hr
            · have := List.of_mem_filter hpage
              simpa using this
            · exact ih restEvents hrest e hr

/-- C1: a `GoogleCalendar.revalidate` call that fails — the token
acquisition throws, a page request throws, or a page carries an API
error — leaves the cached snapshot exactly as it was; only a run that
fetches every page successfully replaces the snapshot, and the
replacement contains no event whose status is `"cancelled"`. -/
theorem claimC1_revalidate_failure_preserves_snapshot
    (events : List GoogleEvent) (token : Except String String)
    (pages : List PageOutcome) :
    (∀ e, (revalidate events token pages).2 = some e →
      (revalidate events token pages).1 = events) ∧
    ((revalidate events token pages).2 = none →
      fetchAllPages pages = .ok (revalidate events token pages).1 ∧
      ∀ g ∈ (revalidate events token pages).1, g.status ≠ some "cancelled") := by
  constructor
  · intro e herr
    cases token with
    | error te => rfl
    | ok tok =>
      simp only [revalidate] at herr ⊢
      cases hfetch : fetchAllPages pages with
      | error fe => rfl
      | ok fetched => rw [hfetch] at herr; simp at herr
  · intro hok
    cases token with
    | error te => simp [revalidate] at hok
    | ok tok =>
      simp only [revalidate] at hok ⊢
      cases hfetch : fetchAllPages pages with
      | error fe => rw [hfetch] at hok; simp at hok
      | ok fetched =>
        exact ⟨rfl, fetchAllPages_no_cancelled pages fetched hfetch⟩

/-- Witness for C1: with the one-element snapshot and a failing token the
snapshot survives; with a successful single-page fetch the snapshot is
replaced by the page's non-cancelled events. -/
theorem claimC1_witness :
    (revalidate [⟨"a", none, none⟩] (.error "no token") []).1 = [⟨"a", none, none⟩] ∧
    (fetchAllPages [.response none
        (some [⟨"b", none, some "confirmed"⟩, ⟨"c", none, some "cancelled"⟩]) none] =
      .ok (revalidate [⟨"a", none, none⟩] (.ok "token")
        [.response none
          (some [⟨"b", none, some "confirmed"⟩, ⟨"c", none, some "cancelled"⟩]) none]).1) := by
  have h1 := (claimC1_revalidate_failure_preserves_snapshot
    [⟨"a", none, none⟩] (.error "no token") []).1 "no token" (by rfl)
  have h2 := ((claimC1_revalidate_failure_preserves_snapshot
    [⟨"a", none, none⟩] (.ok "token")
    [.response none
      (some [⟨"b", none, some "confirmed"⟩, ⟨"c", none, some "cancelled"⟩]) none]).2
    (by rfl)).1
  exact ⟨h1, h2⟩

/-- C7: each file-system notification reaches exactly one cache entry
point — metadata changes flow to `fileUpdated` with the changed file, a
file rename flows to `deleteEventsAtPath` with the old path (never the
new one), a file deletion flows to `deleteEventsAtPath` with the deleted
path, and folder renames/deletions trigger no cache call. -/
theorem claimC7_notification_routing :
    (∀ f, dispatchNotification (.metadataChanged f) = [.fileUpdated f]) ∧
    (∀ newPath oldPath,
      dispatchNotification (.renamed (.tfile newPath) oldPath) =
        [.deleteEventsAtPath oldPath]) ∧
    (∀ p, dispatchNotification (.deleted (.tfile p)) = [.deleteEventsAtPath p]) ∧
    (∀ p oldPath, dispatchNotification (.renamed (.tfolder p) oldPath) = []) ∧
    (∀ p, dispatchNotification (.deleted (.tfolder p)) = []) ∧
    (∀ n, (dispatchNotification n).length ≤ 1) := by
  refine ⟨fun f => rfl, fun np op => rfl, fun p => rfl, fun p op => rfl, fun p => rfl, ?_⟩
  intro n
  cases n with
  | metadataChanged f => simp [dispatchNotification]
  | renamed e op => cases e <;> simp [dispatchNotification]
  | deleted e => cases e <;> simp [dispatchNotification]

/-- C8: `saveData` called with any object carrying a `calendarSources`
field persists `getSettingsForSave()` of the in-memory settings, so two
plugin states whose settings differ only in the three Google token fields
persist identical data, and the persisted settings always have empty
token strings and a zero expiry. -/
theorem claimC8_tokens_never_persisted (s : FullCalendarSettings)
    (rtok atok : String) (exp : Int) (v : JValue)
    (hv : hasCalendarSourcesField v = true) :
    saveData
      { s with
        googleRefreshToken := rtok
        googleAccessToken := atok
        googleTokenExpiry := exp }
      (some v) = saveData s (some v) ∧
    saveData s (some v) = .settings (getSettingsForSave s) ∧
    (getSettingsForSave s).googleRefreshToken = "" ∧
    (getSettingsForSave s).googleAccessToken = "" ∧
    (getSettingsForSave s).googleTokenExpiry = 0 := by
  cases v with
  | null => simp [hasCalendarSourcesField] at hv
  | bool b => simp [hasCalendarSourcesField] at hv
  | num n => simp [hasCalendarSourcesField] at hv
  | str st => simp [hasCalendarSourcesField] at hv
  | arr vs => simp [hasCalendarSourcesField] at hv
  | obj kvs =>
    refine ⟨?_, ?_, rfl, rfl, rfl⟩
    · simp [saveData, hv, getSettingsForSave]
    · simp [saveData, hv]

/-- Witness for C8: a concrete settings record with nonempty tokens and a
concrete settings-shaped object; the persisted payload blanks the
tokens. -/
theorem claimC8_witness :
    saveData
        { calendarSources := [], defaultCalendar := 0, firstDay := 0,
          initialViewDesktop := "timeGridWeek", initialViewMobile := "timeGrid3Days",
          timeFormat24h := false, clickToCreateEventFromMonthView := true,
          slotMinTime := "00:00:00", slotMaxTime := "24:00:00",
          googleClientId := "cid", googleClientSecret := "sec",
          googleRefreshToken := "", googleAccessToken := "",
          googleTokenExpiry := 0 }
        (some (.obj [("calendarSources", .arr [])])) =
      .settings (getSettingsForSave
        { calendarSources := [], defaultCalendar := 0, firstDay := 0,
          initialViewDesktop := "timeGridWeek", initialViewMobile := "timeGrid3Days",
          timeFormat24h := false, clickToCreateEventFromMonthView := true,
          slotMinTime := "00:00:00", slotMaxTime := "24:00:00",
          googleClientId := "cid", googleClientSecret := "sec",
          googleRefreshToken := "", googleAccessToken := "",
          googleTokenExpiry := 0 }) :=
  (claimC8_tokens_never_persisted
    { calendarSources := [], defaultCalendar := 0, firstDay := 0,
      initialViewDesktop := "timeGridWeek", initialViewMobile := "timeGrid3Days",
      timeFormat24h := false, clickToCreateEventFromMonthView := true,
      slotMinTime := "00:00:00", slotMaxTime := "24:00:00",
      googleClientId := "cid", googleClientSecret := "sec",
      googleRefreshToken := "", googleAccessToken := "",
      googleTokenExpiry := 0 }
    "rtok" "atok" 99 (.obj [("calendarSources", .arr [])]) (by decide)).2.1

/-- C9: `createEvent` targets the join of the calendar directory and the
event-derived filename; it rejects without any side effect when a file or
folder already exists there, and otherwise performs exactly one file
creation with the event's frontmatter and returns the whole-file
location. -/
theorem claimC9_create_event (v : Vault μ) (directory : String)
    (rruleToText : String → String) (ev : OFCEvent) :
    (v.entryExists (joinVaultPath directory (filenameForEvent rruleToText ev)) = true →
      ∃ e, createEvent v directory rruleToText ev = ([], .error e)) ∧
    (v.entryExists (joinVaultPath directory (filenameForEvent rruleToText ev)) = false →
      createEvent v directory rruleToText ev =
        ([.create (joinVaultPath directory (filenameForEvent rruleToText ev))
            (newFrontmatter (eventFields ev))],
         .ok ⟨joinVaultPath directory (filenameForEvent rruleToText ev), none⟩)) := by
  constructor
  · intro hexists
    exact ⟨"Event at " ++ joinVaultPath directory (filenameForEvent rruleToText ev)
        ++ " already exists.", by simp [createEvent, hexists]⟩
  · intro hfree
    simp [createEvent, hfree]

/-- Witness for C9: in a vault already holding the target note the
creation is rejected with no trace; in the empty vault the file is
created. -/
theorem claimC9_witness :
    (∃ e, createEvent (μ := Unit)
        ⟨[("events/2024-01-10 Standup.md", ())], ["events"]⟩ "events" id
        (.single "Standup" none none "2024-01-10" none false none none none) =
        ([], .error e)) ∧
    createEvent (μ := Unit) ⟨[], []⟩ "events" id
        (.single "Standup" none none "2024-01-10" none false none none none) =
      ([.create "events/2024-01-10 Standup.md"
          (newFrontmatter (eventFields
            (.single "Standup" none none "2024-01-10" none false none none none)))],
       .ok ⟨"events/2024-01-10 Standup.md", none⟩) := by
  constructor
  · exact (claimC9_create_event
      ⟨[("events/2024-01-10 Standup.md", ())], ["events"]⟩ "events" id
      (.single "Standup" none none "2024-01-10" none false none none none)).1
      (by decide)
  · exact (claimC9_create_event (μ := Unit) ⟨[], []⟩ "events" id
      (.single "Standup" none none "2024-01-10" none false none none none)).2
      (by decide)

/-- C2: for a whole-file location resolving to an existing file,
`modifyEvent` succeeds, invokes the location callback exactly once and
with exactly the location `getNewLocation` computes, invokes it before
any vault write (so a rename can never leave the caller's cache stale),
and renames precisely when the computed path differs from the current
one. -/
theorem claimC2_modify_event_callback {μ : Type} (v : Vault μ)
    (rruleToText : String → String) (location : EventLocation) (ev : OFCEvent)
    (m : μ) (hline : location.lineNumber = none)
    (hfile : v.lookupFile (normalizeVaultPath location.path) = some m) :
    ∃ newLoc,
      getNewLocation v rruleToText location ev = .ok newLoc ∧
      (modifyEvent v rruleToText location ev).2 = .ok () ∧
      ((modifyEvent v rruleToText location ev).1.filter fun a =>
          match a with
          | .callback _ => true
          | _ => false) = [.callback newLoc] ∧
      (modifyEvent v rruleToText location ev).1.head? = some (.callback newLoc) ∧
      (VaultAction.rename (normalizeVaultPath location.path) newLoc.path
          ∈ (modifyEvent v rruleToText location ev).1 ↔
        normalizeVaultPath location.path ≠ newLoc.path) ∧
      (∀ o n, VaultAction.rename o n ∈ (modifyEvent v rruleToText location ev).1 →
        o = normalizeVaultPath location.path ∧ n = newLoc.path) := by
  have hnew : getNewLocation v rruleToText location ev =
      .ok ⟨joinVaultPath (parentDir (normalizeVaultPath location.path))
            (filenameForEvent rruleToText ev), none⟩ := by
    simp [getNewLocation, hline, hfile]
  revert hfile hnew
  generalize hnp : normalizeVaultPath location.path = np
  intro hfile hnew
  revert hnew
  generalize hfp : joinVaultPath (parentDir np) (filenameForEvent rruleToText ev) = fp
  intro hnew
  have hmodify : modifyEvent v rruleToText location ev =
      (VaultAction.callback ⟨fp, none⟩ ::
        ((if np ≠ fp then [VaultAction.rename np fp] else []) ++
          [VaultAction.rewrite fp]), .ok ()) := by
    simp only [modifyEvent, hnp, hfp, hfile, hnew]
  refine ⟨⟨fp, none⟩, hnew, ?_, ?_, ?_, ?_⟩
  · rw [hmodify]
  · rw [hmodify]
    by_cases hne : np = fp
    · rw [if_neg (fun h => h hne)]
      simp
    · rw [if_pos hne]
      simp
  · rw [hmodify]
    rfl
  · constructor
    · rw [hmodify]
      by_cases hne : np = fp
      · rw [if_neg (fun h => h hne)]
        constructor
        · intro hmem
          simp at hmem
        · intro hneq
          exact absurd hne hneq
      · rw [if_pos hne]
        simp [hne]
    · rw [hmodify]
      by_cases hne : np = fp
      · rw [if_neg (fun h => h hne)]
        intro o n h
        simp at h
      · rw [if_pos hne]
        intro o n h
        simp at h
        exact h

/-- Witness for C2: a concrete one-file vault; retitling the note
computes the new path, reports it through the callback first, and renames
because the path changed. -/
theorem claimC2_witness :
    Vault.lookupFile (μ := Unit)
      ⟨[("events/2024-01-10 Standup.md", ())], ["events"]⟩
      (normalizeVaultPath "events/2024-01-10 Standup.md") = some () ∧
    ∃ newLoc,
      getNewLocation (μ := Unit)
          ⟨[("events/2024-01-10 Standup.md", ())], ["events"]⟩ id
          ⟨"events/2024-01-10 Standup.md", none⟩
          (.single "Retro" none none "2024-01-11" none false none none none) =
        .ok newLoc ∧
      (modifyEvent (μ := Unit)
          ⟨[("events/2024-01-10 Standup.md", ())], ["events"]⟩ id
          ⟨"events/2024-01-10 Standup.md", none⟩
          (.single "Retro" none none "2024-01-11" none false none none none)).2 = .ok () ∧
      ((modifyEvent (μ := Unit)
          ⟨[("events/2024-01-10 Standup.md", ())], ["events"]⟩ id
          ⟨"events/2024-01-10 Standup.md", none⟩
          (.single "Retro" none none "2024-01-11" none false none none none)).1.filter
            fun a =>
          match a with
          | .callback _ => true
          | _ => false) = [.callback newLoc] ∧
      (modifyEvent (μ := Unit)
          ⟨[("events/2024-01-10 Standup.md", ())], ["events"]⟩ id
          ⟨"events/2024-01-10 Standup.md", none⟩
          (.single "Retro" none none "2024-01-11" none false none none none)).1.head? =
        some (.callback newLoc) ∧
      (VaultAction.rename (normalizeVaultPath "events/2024-01-10 Standup.md") newLoc.path
          ∈ (modifyEvent (μ := Unit)
              ⟨[("events/2024-01-10 Standup.md", ())], ["events"]⟩ id
              ⟨"events/2024-01-10 Standup.md", none⟩
              (.single "Retro" none none "2024-01-11" none false none none none)).1 ↔
        normalizeVaultPath "events/2024-01-10 Standup.md" ≠ newLoc.path) ∧
      (∀ o n, VaultAction.rename o n
          ∈ (modifyEvent (μ := Unit)
              ⟨[("events/2024-01-10 Standup.md", ())], ["events"]⟩ id
              ⟨"events/2024-01-10 Standup.md", none⟩
              (.single "Retro" none none "2024-01-11" none false none none none)).1 →
        o = normalizeVaultPath "events/2024-01-10 Standup.md" ∧ n = newLoc.path) :=
  ⟨by decide,
   claimC2_modify_event_callback
    ⟨[("events/2024-01-10 Standup.md", ())], ["events"]⟩ id
    ⟨"events/2024-01-10 Standup.md", none⟩
    (.single "Retro" none none "2024-01-11" none false none none none) () rfl (by decide)⟩

/-- C3: `modifyEvent`, `move` and `deleteEvent` all reject when no file
exists at the (normalized) location path; `move` and `deleteEvent` also
reject locations carrying an in-file line anchor, and `move` rejects
destinations that are not note calendars — and in every rejection case
the trace of performed effects is empty: no create/rename/rewrite/delete
and no callback. -/
theorem claimC3_rejection_cases {μ : Type} (v : Vault μ)
    (rruleToText : String → String) (location : EventLocation) (ev : OFCEvent)
    (toCalendar : DestCalendar) :
    (v.lookupFile (normalizeVaultPath location.path) = none →
      (∃ e, modifyEvent v rruleToText location ev = ([], .error e)) ∧
      (∃ e, move v location toCalendar = ([], .error e)) ∧
      (∃ e, deleteEvent v location = ([], .error e))) ∧
    (∀ k, location.lineNumber = some k →
      (∃ e, move v location toCalendar = ([], .error e)) ∧
      (∃ e, deleteEvent v location = ([], .error e))) ∧
    (∀ t, toCalendar = .otherType t →
      ∃ e, move v location toCalendar = ([], .error e)) := by
  refine ⟨?_, ?_, ?_⟩
  · intro hnone
    refine ⟨⟨"File " ++ location.path ++ " either doesn't exist or is a folder.",
        by simp [modifyEvent, hnone]⟩, ?_, ?_⟩
    · cases hl : location.lineNumber with
      | some k =>
        exact ⟨"Note calendar cannot handle inline events.", by simp [move, hl]⟩
      | none =>
        cases toCalendar with
        | otherType t =>
          exact ⟨"Event cannot be moved to a note calendar from a calendar of type "
              ++ t ++ ".", by simp [move, hl]⟩
        | fullNote destDir =>
          exact ⟨"File " ++ normalizeVaultPath location.path ++ " not found.",
            by simp [move, hl, hnone]⟩
    · cases hl : location.lineNumber with
      | some k =>
        exact ⟨"Note calendar cannot handle inline events.", by simp [deleteEvent, hl]⟩
      | none =>
        exact ⟨"File " ++ normalizeVaultPath location.path ++ " not found.",
          by simp [deleteEvent, hl, hnone]⟩
  · intro k hk
    exact ⟨⟨"Note calendar cannot handle inline events.", by simp [move, hk]⟩,
      ⟨"Note calendar cannot handle inline events.", by simp [deleteEvent, hk]⟩⟩
  · intro t ht
    cases hl : location.lineNumber with
    | some k =>
      exact ⟨"Note calendar cannot handle inline events.", by simp [move, hl]⟩
    | none =>
      exact ⟨"Event cannot be moved to a note calendar from a calendar of type "
          ++ t ++ ".", by simp [move, ht, hl]⟩

/-- Witness for C3: in the empty vault, modifying, moving and deleting a
missing note all reject with an empty effect trace, as do an inline
anchor and a non-note destination calendar. -/
theorem claimC3_witness :
    ((∃ e, modifyEvent (μ := Unit) ⟨[], []⟩ id ⟨"gone.md", none⟩
        (.single "T" none none "2024-01-01" none true none none none) = ([], .error e)) ∧
      (∃ e, move (μ := Unit) ⟨[], []⟩ ⟨"gone.md", none⟩ (.fullNote "dest") = ([], .error e)) ∧
      (∃ e, deleteEvent (μ := Unit) ⟨[], []⟩ ⟨"gone.md", none⟩ = ([], .error e))) ∧
    ((∃ e, move (μ := Unit) ⟨[], []⟩ ⟨"daily/2024-01-01.md", some 12⟩ (.fullNote "dest") =
        ([], .error e)) ∧
      (∃ e, deleteEvent (μ := Unit) ⟨[], []⟩ ⟨"daily/2024-01-01.md", some 12⟩ =
        ([], .error e))) ∧
    (∃ e, move (μ := Unit) ⟨[("a.md", ())], []⟩ ⟨"a.md", none⟩ (.otherType "dailynote") =
      ([], .error e)) :=
  ⟨(claimC3_rejection_cases ⟨[], []⟩ id ⟨"gone.md", none⟩
      (.single "T" none none "2024-01-01" none true none none none)
      (.fullNote "dest")).1 (by decide),
   ((claimC3_rejection_cases ⟨[], []⟩ id ⟨"daily/2024-01-01.md", some 12⟩
      (.single "T" none none "2024-01-01" none true none none none)
      (.fullNote "dest")).2.1 12 rfl),
   ((claimC3_rejection_cases ⟨[("a.md", ())], []⟩ id ⟨"a.md", none⟩
      (.single "T" none none "2024-01-01" none true none none none)
      (.otherType "dailynote")).2.2 "dailynote" rfl)⟩

/-- C4: on a whole-file location resolving to an existing file,
`getNewLocation` returns the whole-file location obtained by joining the
file's parent folder with the event-derived filename; the result depends
only on that parent folder and the event (determinism), and the filename
is `"<date> <title>.md"` for single events and
`"(Every <daysOfWeek joined by commas>) <title>.md"` for recurring
events. -/
theorem claimC4_get_new_location {μ : Type} (v : Vault μ)
    (rruleToText : String → String) (location : EventLocation) (ev : OFCEvent)
    (m : μ) (hline : location.lineNumber = none)
    (hfile : v.lookupFile (normalizeVaultPath location.path) = some m) :
    getNewLocation v rruleToText location ev =
      .ok ⟨joinVaultPath (parentDir (normalizeVaultPath location.path))
            (filenameForEvent rruleToText ev), none⟩ ∧
    (∀ (ν : Type) (v' : Vault ν) (location' : EventLocation) (m' : ν),
      location'.lineNumber = none →
      v'.lookupFile (normalizeVaultPath location'.path) = some m' →
      parentDir (normalizeVaultPath location'.path) =
        parentDir (normalizeVaultPath location.path) →
      getNewLocation v' rruleToText location' ev =
        getNewLocation v rruleToText location ev) ∧
    (∀ title color id date endDate allDay st et cm,
      filenameForEvent rruleToText
          (.single title color id date endDate allDay st et cm) =
        date ++ " " ++ title ++ ".md") ∧
    (∀ title color id daysOfWeek sr er allDay st et,
      filenameForEvent rruleToText
          (.recurring title color id daysOfWeek sr er allDay st et) =
        "(Every " ++ String.intercalate "," daysOfWeek ++ ") " ++ title ++ ".md") := by
  have hnew : getNewLocation v rruleToText location ev =
      .ok ⟨joinVaultPath (parentDir (normalizeVaultPath location.path))
            (filenameForEvent rruleToText ev), none⟩ := by
    simp [getNewLocation, hline, hfile]
  refine ⟨hnew, ?_, fun _ _ _ _ _ _ _ _ _ => rfl, fun _ _ _ _ _ _ _ _ _ => rfl⟩
  intro ν v' location' m' hline' hfile' hparent
  rw [hnew]
  simp [getNewLocation, hline', hfile', hparent]

/-- Witness for C4: two notes in the same folder under different names
relocate to the same event-derived path. -/
theorem claimC4_witness :
    Vault.lookupFile (μ := Unit) ⟨[("events/old name.md", ())], ["events"]⟩
      (normalizeVaultPath "events/old name.md") = some () ∧
    getNewLocation (μ := Unit) ⟨[("events/old name.md", ())], ["events"]⟩ id
        ⟨"events/old name.md", none⟩
        (.single "Standup" none none "2024-01-10" none false none none none) =
      .ok ⟨joinVaultPath (parentDir (normalizeVaultPath "events/old name.md"))
            (filenameForEvent id
              (.single "Standup" none none "2024-01-10" none false none none none)),
          none⟩ :=
  ⟨by decide,
   (claimC4_get_new_location ⟨[("events/old name.md", ())], ["events"]⟩ id
      ⟨"events/old name.md", none⟩
      (.single "Standup" none none "2024-01-10" none false none none none) ()
      rfl (by decide)).1⟩

/-- An event emitted by `getEventsInFile` uniquely determines the file's
whole output: the function returns the empty list or a singleton, and the
location it attaches is the file's path with no line anchor. -/
theorem mem_getEventsInFile {μ : Type} (validate : μ → Option OFCEvent)
    (p : String) (m : μ) (x : OFCEvent × EventLocation)
    (hx : x ∈ getEventsInFile validate p m) :
    getEventsInFile validate p m = [x] ∧ x.2 = ⟨p, none⟩ := by
  unfold getEventsInFile at hx ⊢
  cases hv : validate m with
  | none => rw [hv] at hx; simp at hx
  | some ev =>
    rw [hv] at hx
    simp only [List.mem_singleton] at hx
    subst hx
    exact ⟨rfl, rfl⟩

/-- C10: `getEvents` rejects when the configured directory (normalized,
nonempty) resolves to nothing, and when it resolves to a file; when it
succeeds the result is exactly the events of the folder's direct child
files — every returned event carries a whole-file location whose parent
folder is the configured directory, and an event is returned iff some
direct child file of the directory parses to it. -/
theorem claimC10_get_events_direct_children {μ : Type} (v : Vault μ)
    (validate : μ → Option OFCEvent) (directory : String) :
    (normalizeVaultPath directory ≠ "" →
      v.entryExists (normalizeVaultPath directory) = false →
      ∃ e, getEvents v validate directory = .error e) ∧
    (normalizeVaultPath directory ≠ "" →
      (v.lookupFile (normalizeVaultPath directory)).isSome = true →
      ∃ e, getEvents v validate directory = .error e) ∧
    (∀ l, getEvents v validate directory = .ok l →
      l = (v.childFiles (normalizeVaultPath directory)).flatMap
            (fun kv => getEventsInFile validate kv.1 kv.2) ∧
      (∀ ev loc, (ev, loc) ∈ l ↔
        ∃ p m, (p, m) ∈ v.files ∧ parentDir p = normalizeVaultPath directory ∧
          getEventsInFile validate p m = [(ev, loc)]) ∧
      (∀ ev loc, (ev, loc) ∈ l →
        parentDir loc.path = normalizeVaultPath directory ∧ loc.lineNumber = none)) := by
  have memChar : ∀ l, l = (v.childFiles (normalizeVaultPath directory)).flatMap
        (fun kv => getEventsInFile validate kv.1 kv.2) →
      (∀ ev loc, (ev, loc) ∈ l ↔
        ∃ p m, (p, m) ∈ v.files ∧ parentDir p = normalizeVaultPath directory ∧
          getEventsInFile validate p m = [(ev, loc)]) ∧
      (∀ ev loc, (ev, loc) ∈ l →
        parentDir loc.path = normalizeVaultPath directory ∧ loc.lineNumber = none) := by
    intro l hl
    subst hl
    constructor
    · intro ev loc
      constructor
      · intro hmem
        rcases List.mem_flatMap.mp hmem with ⟨kv, hkv, hx⟩
        rcases List.mem_filter.mp hkv with ⟨hfiles, hparent⟩
        rcases mem_getEventsInFile validate kv.1 kv.2 (ev, loc) hx with ⟨heq, hloc⟩
        exact ⟨kv.1, kv.2, by simpa using hfiles, by simpa using hparent, heq⟩
      · rintro ⟨p, m, hpm, hparent, heq⟩
        refine List.mem_flatMap.mpr ⟨(p, m), List.mem_filter.mpr ⟨hpm, by simpa using hparent⟩, ?_⟩
        rw [heq]
        exact List.mem_singleton.mpr rfl
    · intro ev loc hmem
      rcases List.mem_flatMap.mp hmem with ⟨kv, hkv, hx⟩
      rcases List.mem_filter.mp hkv with ⟨hfiles, hparent⟩
      rcases mem_getEventsInFile validate kv.1 kv.2 (ev, loc) hx with ⟨heq, hloc⟩
      simp only at hloc
      rw [hloc]
      exact ⟨by simpa using hparent, rfl⟩
  refine ⟨?_, ?_, ?_⟩
  · intro hne hmissing
    have hmiss : ¬((v.lookupFile (normalizeVaultPath directory)).isSome = true ∨
        v.isFolder (normalizeVaultPath directory) = true) := by
      simpa [Vault.entryExists] using hmissing
    have hlook : ¬(v.lookupFile (normalizeVaultPath directory)).isSome = true :=
      fun h => hmiss (Or.inl h)
    have hfold : ¬ v.isFolder (normalizeVaultPath directory) = true :=
      fun h => hmiss (Or.inr h)
    exact ⟨"Cannot get folder " ++ directory,
      by simp [getEvents, hne, hlook, hfold]⟩
  · intro hne hsome
    exact ⟨normalizeVaultPath directory ++ " is not a directory.",
      by simp [getEvents, hne, hsome]⟩
  · intro l hl
    simp only [getEvents] at hl
    split at hl
    · rename_i hroot
      simp only [Except.ok.injEq] at hl
      subst hl
      have heq : (v.childFiles "").flatMap
            (fun kv => getEventsInFile validate kv.1 kv.2) =
          (v.childFiles (normalizeVaultPath directory)).flatMap
            (fun kv => getEventsInFile validate kv.1 kv.2) := by
        rw [hroot]
      exact ⟨heq, memChar _ heq⟩
    · split at hl
      · simp at hl
      · split at hl
        · simp only [Except.ok.injEq] at hl
          subst hl
          exact ⟨rfl, memChar _ rfl⟩
        · simp at hl

/-- Witness for C10: a vault with a matching folder holding one direct
child file and a nested file; the nested file's event is absent from the
result, and a stray path is rejected. -/
theorem claimC10_witness :
    (∃ e, getEvents (μ := Option OFCEvent)
      ⟨[("events/a.md", some (.single "A" none none "2024-01-01" none true none none none)),
        ("events/sub/b.md", some (.single "B" none none "2024-01-02" none true none none none))],
       ["events", "events/sub"]⟩ id "missing" = .error e) ∧
    (∀ l, getEvents (μ := Option OFCEvent)
        ⟨[("events/a.md", some (.single "A" none none "2024-01-01" none true none none none)),
          ("events/sub/b.md", some (.single "B" none none "2024-01-02" none true none none none))],
         ["events", "events/sub"]⟩ id "events" = .ok l →
      ∀ ev loc, (ev, loc) ∈ l →
        parentDir loc.path = normalizeVaultPath "events" ∧ loc.lineNumber = none) :=
  ⟨(claimC10_get_events_direct_children
      ⟨[("events/a.md", some (.single "A" none none "2024-01-01" none true none none none)),
        ("events/sub/b.md", some (.single "B" none none "2024-01-02" none true none none none))],
       ["events", "events/sub"]⟩ id "missing").1 (by decide) (by decide),
   fun l hl => ((claimC10_get_events_direct_children
      ⟨[("events/a.md", some (.single "A" none none "2024-01-01" none true none none none)),
        ("events/sub/b.md", some (.single "B" none none "2024-01-02" none true none none none))],
       ["events", "events/sub"]⟩ id "events").2.2 l hl).2.2⟩

/-- Once the created latch is set, `performSave` in create mode is inert:
it neither submits nor changes the latch. -/
theorem performSave_latched (step : SaveStep) :
    performSave true step true = (true, false) := by
  unfold performSave
  by_cases h1 : step.dataTitle = "" <;> by_cases h2 : step.date = "" <;>
    simp [h1, h2]

/-- Running any save sequence from a set latch issues no submit. -/
theorem runSaves_latched (steps : List SaveStep) :
    runSaves true true steps = (true, 0) := by
  induction steps with
  | nil => rfl
  | cons st rest ih => simp [runSaves, performSave_latched, ih]

/-- A create-mode save that does not submit leaves the latch unchanged. -/
theorem performSave_no_submit (step : SaveStep) (hc : Bool)
    (h : (performSave true step hc).2 = false) :
    (performSave true step hc).1 = hc := by
  unfold performSave at h ⊢
  by_cases h1 : step.dataTitle = "" <;> by_cases h2 : step.date = "" <;>
    by_cases h3 : hc <;> by_cases h4 : step.behavior.throws <;>
    simp [h1, h2, h3, h4] at h ⊢

/-- A create-mode save whose submit invokes `markCreated` or returns
without throwing leaves the latch set. -/
theorem performSave_good_latch (step : SaveStep) (hc : Bool)
    (hgood : step.behavior.callsMarkCreated = true ∨ step.behavior.throws = false)
    (h : (performSave true step hc).2 = true) :
    (performSave true step hc).1 = true := by
  unfold performSave at h ⊢
  by_cases h1 : step.dataTitle = "" <;> by_cases h2 : step.date = "" <;>
    by_cases h3 : hc <;> by_cases h4 : step.behavior.throws <;>
    rcases hgood with hg | hg <;>
    simp_all [h1, h2, h3, h4, hg]

/-- C6 counterexample: in create mode, with a first submit that throws
before invoking `markCreated` (the `try`/`catch` swallows the error and
the latch stays clear), a second save submits again — the creation submit
is issued twice in one modal, contradicting the claimed "at most once per
modal" over arbitrary save sequences. -/
theorem claimC6_counterexample :
    (runSaves true false
      [⟨"Standup", "2024-01-10", ⟨false, true⟩⟩,
       ⟨"Standup", "2024-01-10", ⟨false, false⟩⟩]).2 = 2 ∧
    ¬(runSaves true false
      [⟨"Standup", "2024-01-10", ⟨false, true⟩⟩,
       ⟨"Standup", "2024-01-10", ⟨false, false⟩⟩]).2 ≤ 1 := by decide

/-- C6 (amended): in create mode `performSave` never submits when the
merged title or the date state is empty, never submits once the latch is
set, and the latch is set by every submit that invokes `markCreated` or
completes without throwing; consequently, over any sequence of saves in
which every submit invocation either invokes `markCreated` or completes
without throwing, the creation submit is issued at most once per modal. -/
theorem claimC6_create_latch :
    (∀ (step : SaveStep) (hc : Bool), step.dataTitle = "" →
      performSave true step hc = (hc, false)) ∧
    (∀ (step : SaveStep) (hc : Bool), step.date = "" →
      performSave true step hc = (hc, false)) ∧
    (∀ step : SaveStep, performSave true step true = (true, false)) ∧
    (∀ (step : SaveStep) (hc : Bool),
      (performSave true step hc).2 = true →
      step.behavior.callsMarkCreated = true ∨ step.behavior.throws = false →
      (performSave true step hc).1 = true) ∧
    (∀ steps : List SaveStep,
      (∀ st ∈ steps, st.behavior.callsMarkCreated = true ∨ st.behavior.throws = false) →
      (runSaves true false steps).2 ≤ 1) := by
  refine ⟨?_, ?_, performSave_latched, fun step hc h hg => performSave_good_latch step hc hg h, ?_⟩
  · intro step hc h1
    simp [performSave, h1]
  · intro step hc h2
    by_cases h1 : step.dataTitle = "" <;> simp [performSave, h1, h2]
  · intro steps
    induction steps with
    | nil => intro _; simp [runSaves]
    | cons st rest ih =>
      intro hgood
      have hgst := hgood st (List.mem_cons_self st rest)
      have hgrest : ∀ s ∈ rest,
          s.behavior.callsMarkCreated = true ∨ s.behavior.throws = false :=
        fun s hs => hgood s (List.mem_cons_of_mem st hs)
      show (if (performSave true st false).2 then 1 else 0) +
          (runSaves true (performSave true st false).1 rest).2 ≤ 1
      cases hr : (performSave true st false).2 with
      | false =>
        rw [performSave_no_submit st false hr]
        simpa using ih hgrest
      | true =>
        rw [performSave_good_latch st false hgst hr, runSaves_latched]
        simp

/-- Witness for C6 (amended): the empty-title guard blocks the submit,
and a well-behaved two-save sequence submits exactly once. -/
theorem claimC6_witness :
    performSave true ⟨"", "2024-01-10", ⟨false, false⟩⟩ false = (false, false) ∧
    (runSaves true false
      [⟨"Standup", "2024-01-10", ⟨true, true⟩⟩,
       ⟨"Standup", "2024-01-10", ⟨false, false⟩⟩]).2 ≤ 1 :=
  ⟨claimC6_create_latch.1 ⟨"", "2024-01-10", ⟨false, false⟩⟩ false rfl,
   claimC6_create_latch.2.2.2.2
    [⟨"Standup", "2024-01-10", ⟨true, true⟩⟩,
     ⟨"Standup", "2024-01-10", ⟨false, false⟩⟩]
    (by decide)⟩

/-- C5: `safeParseCalendarInfo` is total (it returns `null` rather than
throwing on every failure) and agrees with the claim's description on
every input: it returns the variant's type-specific fields combined with
the shared string color exactly when the input conforms to one of the
five descriptor schemas and carries a string color, and `null` on every
other input. -/
theorem claimC5_safe_parse_spec (isUrl : String → Bool) (v : JValue) :
    safeParseCalendarInfo isUrl v = specCalendarInfo isUrl v := by
  unfold safeParseCalendarInfo parseCalendarInfo specCalendarInfo parseCalendarOptions
  rcases htype : v.lookup "type" with _ | jt
  · generalize asString (v.lookup "color") = rcolor
    rcases rcolor with _ | c <;> rfl
  · cases jt with
    | null =>
      generalize asString (v.lookup "color") = rcolor
      rcases rcolor with _ | c <;> rfl
    | bool b =>
      generalize asString (v.lookup "color") = rcolor
      rcases rcolor with _ | c <;> rfl
    | num n =>
      generalize asString (v.lookup "color") = rcolor
      rcases rcolor with _ | c <;> rfl
    | arr vs =>
      generalize asString (v.lookup "color") = rcolor
      rcases rcolor with _ | c <;> rfl
    | obj kvs =>
      generalize asString (v.lookup "color") = rcolor
      rcases rcolor with _ | c <;> rfl
    | str s =>
      by_cases h1 : s = "local"
      · subst h1
        generalize asString (v.lookup "directory") = rdir
        generalize asString (v.lookup "color") = rcolor
        rcases rdir with _ | d <;> rcases rcolor with _ | c <;> rfl
      · by_cases h2 : s = "dailynote"
        · subst h2
          generalize asString (v.lookup "heading") = rhead
          generalize asString (v.lookup "color") = rcolor
          rcases rhead with _ | hh <;> rcases rcolor with _ | c <;> rfl
        · by_cases h3 : s = "ical"
          · subst h3
            generalize asUrl isUrl (v.lookup "url") = rurl
            generalize asString (v.lookup "color") = rcolor
            rcases rurl with _ | u <;> rcases rcolor with _ | c <;> rfl
          · by_cases h4 : s = "caldav"
            · subst h4
              generalize asString (v.lookup "name") = rname
              generalize asUrl isUrl (v.lookup "url") = rurl
              generalize asUrl isUrl (v.lookup "homeUrl") = rhome
              generalize asString (v.lookup "username") = rusr
              generalize asString (v.lookup "password") = rpw
              generalize asString (v.lookup "color") = rcolor
              rcases rname with _ | n <;> rcases rurl with _ | u <;>
                rcases rhome with _ | hu <;> rcases rusr with _ | un <;>
                rcases rpw with _ | pw <;> rcases rcolor with _ | c <;> rfl
            · by_cases h5 : s = "gcal"
              · subst h5
                generalize asString (v.lookup "calendarId") = rcid
                generalize asString (v.lookup "name") = rname
                generalize asString (v.lookup "color") = rcolor
                rcases rcid with _ | cid <;> rcases rname with _ | n <;>
                  rcases rcolor with _ | c <;> rfl
              · generalize asString (v.lookup "color") = rcolor
                rcases rcolor with _ | c <;>
                  simp [h1, h2, h3, h4, h5, asString]

end FullCalendar
